import Mathlib

/-!
Shallow embedding of `src/main.ts` (electron-reload): the surface registry
kept in `browserWindows`, the soft-reset and hard-reset chokidar
subscriptions wired by the default export, and the process respawner
`createHardresetHandler`.  Line numbers in the doc comments refer to
`src/main.ts`.
-/

namespace ElectronReload

/-- One entry of a chokidar `ignored` array: either the regex
`/node_modules|[/\\]\./` of line 7 (matching dependency directories and
dotfile/hidden paths), or a literal path string. -/
inductive IgnoreEnt where
  | nodeModulesOrHiddenRegex : IgnoreEnt
  | path : String → IgnoreEnt
  deriving DecidableEq

/-- Line 7: `const ignoredPaths = /node_modules|[/\\]\./`. -/
def ignoredPaths : IgnoreEnt := IgnoreEnt.nodeModulesOrHiddenRegex

/-- The caller-supplied options object (lines 47-55).  `none` marks a key
that is absent from the object, so `Object.assign` does not copy it. -/
structure Options where
  ignored : Option (List IgnoreEnt) := none
  hardResetMethod : Option String := none
  argv : Option (List String) := none
  forceHardReset : Option Bool := none
  electron : Option String := none
  mainFile : Option String := none
  deriving DecidableEq

/-- Observable effects performed through the host runtime, the spawned
child process handle and the console. -/
inductive Action where
  | spawn : String → List String → Bool → String → Action
  | childUnref : Action
  | appExit : Action
  | appQuit : Action
  | reloadIgnoringCache : Nat → Action
  deriving DecidableEq

/-- The soft-reset chokidar subscription of line 59: its watch pattern
list, its `ignored` option, and whether it is still open (line 102 may
close it). -/
structure SoftWatcher where
  patterns : List String
  ignored : List IgnoreEnt
  isOpen : Bool
  deriving DecidableEq

/-- The hard-reset chokidar subscription of line 93: its watch pattern
list, its `ignored` option, and whether the one-shot change binding of
line 105 is still armed. -/
structure HardWatcher where
  patterns : List String
  ignored : List IgnoreEnt
  onceArmed : Bool
  deriving DecidableEq

/-- Lines 20-43: the hard-reset callback.  It spawns the executable as a
detached child with inherited stdio and argument vector
`(argv ?? []).concat([appPath])`, unrefs the child, then calls
`app.exit()` when `hardResetMethod === 'exit'` and `app.quit()`
otherwise. -/
def createHardresetHandler (eXecutable : String) (hardResetMethod : Option String)
    (argv : Option (List String)) (appPath : String) : List Action :=
  [Action.spawn eXecutable ((argv.getD []) ++ [appPath]) true "inherit",
   Action.childUnref]
    ++ (if hardResetMethod = some "exit" then [Action.appExit] else [Action.appQuit])

/-- The state set up by the default export (lines 45-109): the resolved
entry file, the `browserWindows` registry, the two subscriptions, the
hard-reset callback closure (as the action list it performs when invoked)
and the console output of startup. -/
structure DispatcherState where
  appPath : String
  mainFile : String
  browserWindows : List Nat
  softWatcher : SoftWatcher
  hardWatcher : Option HardWatcher
  hardResetActions : List Action
  setupLog : List String
  deriving DecidableEq

/-- First index of `w` in `l`, if any (the stage of JavaScript
`Array.prototype.indexOf` before the absent case is mapped to -1). -/
def indexOfAux : List Nat → Nat → Option Nat
  | [], _ => none
  | a :: t, w => if a = w then some 0 else (indexOfAux t w).map (· + 1)

/-- JavaScript `Array.prototype.indexOf`: the first index of `w`, or -1
when `w` is absent. -/
def jsIndexOf (l : List Nat) (w : Nat) : Int :=
  match indexOfAux l w with
  | some i => (i : Int)
  | none => -1

/-- JavaScript `Array.prototype.splice(start, 1)`: a negative start
counts from the end of the array and is clamped at 0, a start past the
end removes nothing, and otherwise the one element at `start` is
removed. -/
def spliceRemoveOne (l : List Nat) (start : Int) : List Nat :=
  let n : Int := (l.length : Int)
  let s : Nat := (if start < 0 then max (n + start) 0 else min start n).toNat
  l.take s ++ l.drop (s + 1)

/-- Lines 81-84, the body of the closed-window handler:
`const i = browserWindows.indexOf(bw); browserWindows.splice(i, 1)`. -/
def unregisterBW (l : List Nat) (w : Nat) : List Nat :=
  spliceRemoveOne l (jsIndexOf l w)

/-- Lines 66-67: reload every tracked browser window, ignoring the cache,
in registry order. -/
def softResetHandler (browserWindows : List Nat) : List Action :=
  browserWindows.map Action.reloadIgnoringCache

/-- Line 57: `options.mainFile ?? module.parent?.filename ?? ''`. -/
def resolveMainFile (optMainFile : Option String)
    (moduleParentFilename : Option String) : String :=
  optMainFile.getD (moduleParentFilename.getD "")

/-- Line 92, the guard of hard-reset preparation:
`typeof eXecutable === 'string' && fs.existsSync(eXecutable)`. -/
def hardResetEligible (options : Options) (fsExistsSync : String → Bool) : Bool :=
  match options.electron with
  | some e => fsExistsSync e
  | none => false

/-- The default export (lines 45-109).  `glob` is the caller's pattern
argument, `fsExistsSync` the state of the filesystem at startup,
`moduleParentFilename` the caller's module context and `appPath` the
value of `app.getAppPath()`. -/
def electronReload (glob : List String) (options : Options)
    (fsExistsSync : String → Bool) (moduleParentFilename : Option String)
    (appPath : String) : DispatcherState :=
  let mainFile := resolveMainFile options.mainFile moduleParentFilename
  let watcher : SoftWatcher :=
    { patterns := glob
      ignored := options.ignored.getD [ignoredPaths, IgnoreEnt.path mainFile]
      isOpen := true }
  let hardResetActions :=
    createHardresetHandler (options.electron.getD "") options.hardResetMethod
      options.argv appPath
  if hardResetEligible options fsExistsSync then
    let hw0 : HardWatcher :=
      { patterns := [mainFile]
        ignored := options.ignored.getD [ignoredPaths]
        onceArmed := false }
    let hw1 :=
      if options.forceHardReset = some true then
        { hw0 with patterns := hw0.patterns ++ glob }
      else hw0
    let soft1 :=
      if options.forceHardReset = some true then { watcher with isOpen := false }
      else watcher
    { appPath := appPath
      mainFile := mainFile
      browserWindows := []
      softWatcher := soft1
      hardWatcher := some { hw1 with onceArmed := true }
      hardResetActions := hardResetActions
      setupLog := [] }
  else
    { appPath := appPath
      mainFile := mainFile
      browserWindows := []
      softWatcher := watcher
      hardWatcher := none
      hardResetActions := hardResetActions
      setupLog := ["Electron could not be found. No hard resets for you!"] }

/-- External notifications delivered to the handlers wired at startup:
window creation and close notifications from the host runtime, and change
events delivered on the soft and hard subscriptions by the watch
service. -/
inductive Ev where
  | windowCreated : Nat → Ev
  | windowClosed : Nat → Ev
  | softChange : Ev
  | hardChange : Ev
  deriving DecidableEq

/-- Deliver one event: the corresponding handler of `src/main.ts` runs,
giving the next state and the actions the handler performs.  A change
event on a closed subscription, or on the hard subscription after its
one-shot binding already fired, reaches no handler. -/
def step (s : DispatcherState) : Ev → DispatcherState × List Action
  | Ev.windowCreated w => ({ s with browserWindows := s.browserWindows ++ [w] }, [])
  | Ev.windowClosed w =>
      ({ s with browserWindows := unregisterBW s.browserWindows w }, [])
  | Ev.softChange =>
      if s.softWatcher.isOpen then (s, softResetHandler s.browserWindows) else (s, [])
  | Ev.hardChange =>
      match s.hardWatcher with
      | some hw =>
          if hw.onceArmed then
            ({ s with hardWatcher := some { hw with onceArmed := false } },
              s.hardResetActions)
          else (s, [])
      | none => (s, [])

/-- Deliver a list of events in order, concatenating the performed
actions. -/
def run (s : DispatcherState) : List Ev → DispatcherState × List Action
  | [] => (s, [])
  | e :: rest =>
      let p := step s e
      let q := run p.1 rest
      (q.1, p.2 ++ q.2)

/-- Does this action launch a child process? -/
def isSpawn : Action → Bool
  | Action.spawn _ _ _ _ => true
  | _ => false

/-- Number of child-process launches in an action trace. -/
def spawnCount (t : List Action) : Nat := t.countP isSpawn

/-- Is the one-shot hard-reset binding still armed? -/
def hardArmed (s : DispatcherState) : Bool :=
  match s.hardWatcher with
  | some hw => hw.onceArmed
  | none => false

/-- The pattern list of the hard-reset subscription (empty when none was
created). -/
def hardPatternList (s : DispatcherState) : List String :=
  match s.hardWatcher with
  | some hw => hw.patterns
  | none => []

/-- Number of creation notifications for window `w` in an event list. -/
def createCount (w : Nat) : List Ev → Nat
  | [] => 0
  | Ev.windowCreated v :: rest => (if v = w then 1 else 0) + createCount w rest
  | _ :: rest => createCount w rest

/-- Number of close notifications for window `w` in an event list. -/
def closeCount (w : Nat) : List Ev → Nat
  | [] => 0
  | Ev.windowClosed v :: rest => (if v = w then 1 else 0) + closeCount w rest
  | _ :: rest => closeCount w rest

/-- The evolution of the `browserWindows` array alone under one event. -/
def registryStep (l : List Nat) : Ev → List Nat
  | Ev.windowCreated w => l ++ [w]
  | Ev.windowClosed w => unregisterBW l w
  | _ => l

/-- Starting from registry `l`, every close notification in the event
list is paired with a window that is in the registry at that moment (it
was created before and has not closed since). -/
def wfFrom : List Nat → List Ev → Bool
  | _, [] => true
  | l, Ev.windowCreated w :: rest => wfFrom (l ++ [w]) rest
  | l, Ev.windowClosed w :: rest => decide (w ∈ l) && wfFrom (unregisterBW l w) rest
  | l, _ :: rest => wfFrom l rest

/-! Helper lemmas about the JavaScript array primitives. -/

lemma indexOfAux_of_not_mem : ∀ (l : List Nat) (w : Nat), w ∉ l → indexOfAux l w = none := by
  intro l w h
  induction l with
  | nil => rfl
  | cons a t ih =>
      have ha : ¬a = w := fun hc => h (hc ▸ List.mem_cons_self a t)
      have ht : w ∉ t := fun hc => h (List.mem_cons_of_mem a hc)
      simp [indexOfAux, ha, ih ht]

lemma indexOfAux_of_mem : ∀ (l : List Nat) (w : Nat), w ∈ l →
    ∃ i, indexOfAux l w = some i ∧ i < l.length ∧
      l.take i ++ l.drop (i + 1) = l.erase w := by
  intro l
  induction l with
  | nil => intro w h; simp at h
  | cons a t ih =>
      intro w h
      by_cases ha : a = w
      · refine ⟨0, by simp [indexOfAux, ha], by simp, ?_⟩
        simp [List.erase_cons, ha]
      · have ht : w ∈ t := by
          rcases List.mem_cons.mp h with h1 | h1
          · exact absurd h1.symm ha
          · exact h1
        obtain ⟨i, h1, h2, h3⟩ := ih w ht
        refine ⟨i + 1, by simp [indexOfAux, ha, h1], by simpa using h2, ?_⟩
        have hbeq : (a == w) = false := by simp [ha]
        simp [List.erase_cons, hbeq, List.take_succ_cons, List.drop_succ_cons, h3]

lemma spliceRemoveOne_natCast (l : List Nat) (i : Nat) (h : i < l.length) :
    spliceRemoveOne l (i : Int) = l.take i ++ l.drop (i + 1) := by
  unfold spliceRemoveOne
  have h0 : ¬((i : Int) < 0) := by omega
  have h1 : (min (i : Int) (l.length : Int)).toNat = i := by omega
  simp only [h0, if_false, h1]

lemma spliceRemoveOne_negOne (l : List Nat) : spliceRemoveOne l (-1) = l.dropLast := by
  unfold spliceRemoveOne
  cases l with
  | nil => rfl
  | cons a t =>
      have h1 : ((-1 : Int) < 0) := by omega
      have h2 : (max (((a :: t).length : Int) + -1) 0).toNat = (a :: t).length - 1 := by
        simp only [List.length_cons]
        omega
      simp only [h1, if_true, h2]
      rw [List.dropLast_eq_take]
      have h3 : (a :: t).length - 1 + 1 = (a :: t).length := by simp
      rw [h3, List.drop_length, List.append_nil]

lemma unregisterBW_of_mem {l : List Nat} {w : Nat} (h : w ∈ l) :
    unregisterBW l w = l.erase w := by
  obtain ⟨i, h1, h2, h3⟩ := indexOfAux_of_mem l w h
  unfold unregisterBW jsIndexOf
  rw [h1, spliceRemoveOne_natCast l i h2]
  exact h3

lemma unregisterBW_of_not_mem {l : List Nat} {w : Nat} (h : w ∉ l) :
    unregisterBW l w = l.dropLast := by
  unfold unregisterBW jsIndexOf
  rw [indexOfAux_of_not_mem l w h]
  exact spliceRemoveOne_negOne l

/-! Helper lemmas about event processing. -/

lemma step_browserWindows (s : DispatcherState) (e : Ev) :
    ((step s e).1).browserWindows = registryStep s.browserWindows e := by
  cases e with
  | windowCreated w => rfl
  | windowClosed w => rfl
  | softChange =>
      by_cases h : s.softWatcher.isOpen <;> simp [step, registryStep, h]
  | hardChange =>
      cases hh : s.hardWatcher with
      | none => simp [step, registryStep, hh]
      | some hw =>
          by_cases h : hw.onceArmed <;> simp [step, registryStep, hh, h]

lemma step_softWatcher (s : DispatcherState) (e : Ev) :
    ((step s e).1).softWatcher = s.softWatcher := by
  cases e with
  | windowCreated w => rfl
  | windowClosed w => rfl
  | softChange =>
      by_cases h : s.softWatcher.isOpen <;> simp [step, h]
  | hardChange =>
      cases hh : s.hardWatcher with
      | none => simp [step, hh]
      | some hw =>
          by_cases h : hw.onceArmed <;> simp [step, hh, h]

lemma step_hardResetActions (s : DispatcherState) (e : Ev) :
    ((step s e).1).hardResetActions = s.hardResetActions := by
  cases e with
  | windowCreated w => rfl
  | windowClosed w => rfl
  | softChange =>
      by_cases h : s.softWatcher.isOpen <;> simp [step, h]
  | hardChange =>
      cases hh : s.hardWatcher with
      | none => simp [step, hh]
      | some hw =>
          by_cases h : hw.onceArmed <;> simp [step, hh, h]

lemma run_browserWindows : ∀ (evs : List Ev) (s : DispatcherState),
    ((run s evs).1).browserWindows = evs.foldl registryStep s.browserWindows := by
  intro evs
  induction evs with
  | nil => intro s; rfl
  | cons e rest ih =>
      intro s
      simp only [run, List.foldl_cons]
      rw [ih, step_browserWindows]

lemma run_softWatcher : ∀ (evs : List Ev) (s : DispatcherState),
    ((run s evs).1).softWatcher = s.softWatcher := by
  intro evs
  induction evs with
  | nil => intro s; rfl
  | cons e rest ih =>
      intro s
      simp only [run]
      rw [ih, step_softWatcher]

/-! Helper lemmas about spawn counting. -/

lemma spawnCount_append (a b : List Action) :
    spawnCount (a ++ b) = spawnCount a + spawnCount b := by
  simp [spawnCount, List.countP_append]

lemma spawnCount_soft (l : List Nat) : spawnCount (softResetHandler l) = 0 := by
  simp only [spawnCount, softResetHandler]
  rw [List.countP_eq_zero]
  intro a ha
  obtain ⟨w, _, rfl⟩ := List.mem_map.mp ha
  simp [isSpawn]

lemma spawnCount_handler (e : String) (m : Option String) (a : Option (List String))
    (p : String) : spawnCount (createHardresetHandler e m a p) = 1 := by
  by_cases h : m = some "exit" <;>
    simp [createHardresetHandler, spawnCount, h, List.countP_cons, List.countP_nil, isSpawn]

lemma run_spawnCount_le : ∀ (evs : List Ev) (s : DispatcherState),
    spawnCount s.hardResetActions ≤ 1 →
    spawnCount (run s evs).2 ≤ (if hardArmed s then 1 else 0) := by
  intro evs
  induction evs with
  | nil =>
      intro s _
      simp only [run, spawnCount, List.countP_nil]
      split <;> omega
  | cons e rest ih =>
      intro s hs
      simp only [run]
      rw [spawnCount_append]
      cases e with
      | windowCreated w =>
          have h1 := ih { s with browserWindows := s.browserWindows ++ [w] } hs
          have h2 : hardArmed { s with browserWindows := s.browserWindows ++ [w] }
              = hardArmed s := rfl
          rw [h2] at h1
          simpa [step, spawnCount] using h1
      | windowClosed w =>
          have h1 := ih { s with browserWindows := unregisterBW s.browserWindows w } hs
          have h2 : hardArmed { s with browserWindows := unregisterBW s.browserWindows w }
              = hardArmed s := rfl
          rw [h2] at h1
          simpa [step, spawnCount] using h1
      | softChange =>
          by_cases h : s.softWatcher.isOpen
          · have h1 := ih s hs
            have h2 : step s Ev.softChange = (s, softResetHandler s.browserWindows) := by
              simp [step, h]
            rw [h2, spawnCount_soft]
            simpa using h1
          · have h1 := ih s hs
            have h2 : step s Ev.softChange = (s, []) := by simp [step, h]
            rw [h2]
            simpa [spawnCount] using h1
      | hardChange =>
          cases hh : s.hardWatcher with
          | none =>
              have h2 : step s Ev.hardChange = (s, []) := by simp [step, hh]
              rw [h2]
              have h1 := ih s hs
              simpa [spawnCount] using h1
          | some hw =>
              by_cases h : hw.onceArmed
              · have h2 : step s Ev.hardChange =
                    ({ s with hardWatcher := some { hw with onceArmed := false } },
                      s.hardResetActions) := by
                  simp [step, hh, h]
                rw [h2]
                have h1 := ih { s with hardWatcher := some { hw with onceArmed := false } } hs
                have h3 : hardArmed { s with hardWatcher := some { hw with onceArmed := false } }
                    = false := rfl
                rw [h3] at h1
                simp only [Bool.false_eq_true, if_false] at h1
                have h4 : hardArmed s = true := by simp [hardArmed, hh, h]
                rw [h4]
                simp only [if_true]
                omega
              · have h2 : step s Ev.hardChange = (s, []) := by simp [step, hh, h]
                rw [h2]
                have h1 := ih s hs
                have h3 : hardArmed s = false := by simp [hardArmed, hh, h]
                rw [h3] at h1 ⊢
                simpa [spawnCount] using h1

/-! Helper lemmas for the registry invariant. -/

lemma wf_foldl_count : ∀ (evs : List Ev) (l : List Nat) (w : Nat),
    wfFrom l evs = true →
    (evs.foldl registryStep l).count w + closeCount w evs =
      l.count w + createCount w evs := by
  intro evs
  induction evs with
  | nil => intro l w _; simp [closeCount, createCount]
  | cons e rest ih =>
      intro l w hwf
      cases e with
      | windowCreated v =>
          have hwf2 : wfFrom (l ++ [v]) rest = true := by
            simpa [wfFrom] using hwf
          have h1 := ih (l ++ [v]) w hwf2
          have hsing : List.count w [v] = if v = w then 1 else 0 := by
            by_cases hv : v = w <;> simp [List.count_cons, hv]
          simp only [List.foldl_cons, registryStep, createCount, closeCount]
          rw [h1, List.count_append, hsing]
          omega
      | windowClosed v =>
          have hand := hwf
          simp only [wfFrom, Bool.and_eq_true, decide_eq_true_eq] at hand
          obtain ⟨hmem, hwf2⟩ := hand
          have h1 := ih (unregisterBW l v) w hwf2
          rw [unregisterBW_of_mem hmem] at h1
          simp only [List.foldl_cons, registryStep, createCount, closeCount]
          rw [unregisterBW_of_mem hmem]
          by_cases hv : v = w
          · subst hv
            have hpos : 0 < l.count v := List.count_pos_iff.mpr hmem
            have herase : (l.erase v).count v = l.count v - 1 := List.count_erase_self ..
            rw [herase] at h1
            simp only [eq_self_iff_true, if_true]
            omega
          · have herase : (l.erase v).count w = l.count w :=
              List.count_erase_of_ne (fun hc => hv hc.symm) l
            rw [herase] at h1
            simp only [if_neg hv]
            omega
      | softChange =>
          have hwf2 : wfFrom l rest = true := by simpa [wfFrom] using hwf
          have h1 := ih l w hwf2
          simpa [registryStep, createCount, closeCount] using h1
      | hardChange =>
          have hwf2 : wfFrom l rest = true := by simpa [wfFrom] using hwf
          have h1 := ih l w hwf2
          simpa [registryStep, createCount, closeCount] using h1

lemma electronReload_browserWindows (glob : List String) (opts : Options)
    (fs : String → Bool) (mp : Option String) (ap : String) :
    (electronReload glob opts fs mp ap).browserWindows = [] := by
  unfold electronReload
  split <;> rfl

lemma electronReload_hardResetActions (glob : List String) (opts : Options)
    (fs : String → Bool) (mp : Option String) (ap : String) :
    (electronReload glob opts fs mp ap).hardResetActions =
      createHardresetHandler (opts.electron.getD "") opts.hardResetMethod opts.argv ap := by
  unfold electronReload
  split <;> rfl

/-! Helper lemma for counting reload actions. -/

lemma count_map_reload (l : List Nat) (w : Nat) :
    (l.map Action.reloadIgnoringCache).count (Action.reloadIgnoringCache w) = l.count w :=
  List.count_map_of_injective l Action.reloadIgnoringCache
    (fun a b h => by injection h) w

/-! Helper lemmas characterizing the state built at startup. -/

lemma electronReload_mainFile (glob : List String) (opts : Options)
    (fs : String → Bool) (mp : Option String) (ap : String) :
    (electronReload glob opts fs mp ap).mainFile = resolveMainFile opts.mainFile mp := by
  by_cases hE : hardResetEligible opts fs <;> simp [electronReload, hE]

lemma electronReload_softWatcher (glob : List String) (opts : Options)
    (fs : String → Bool) (mp : Option String) (ap : String) :
    (electronReload glob opts fs mp ap).softWatcher =
      { patterns := glob
        ignored := opts.ignored.getD
          [ignoredPaths, IgnoreEnt.path (resolveMainFile opts.mainFile mp)]
        isOpen := !(hardResetEligible opts fs
          && decide (opts.forceHardReset = some true)) } := by
  by_cases hE : hardResetEligible opts fs <;>
    by_cases hF : opts.forceHardReset = some true <;>
    simp [electronReload, hE, hF]

lemma electronReload_hardWatcher (glob : List String) (opts : Options)
    (fs : String → Bool) (mp : Option String) (ap : String) :
    (electronReload glob opts fs mp ap).hardWatcher =
      if hardResetEligible opts fs then
        some { patterns :=
                 if opts.forceHardReset = some true then
                   [resolveMainFile opts.mainFile mp] ++ glob
                 else [resolveMainFile opts.mainFile mp]
               ignored := opts.ignored.getD [ignoredPaths]
               onceArmed := true }
      else none := by
  by_cases hE : hardResetEligible opts fs <;>
    by_cases hF : opts.forceHardReset = some true <;>
    simp [electronReload, hE, hF]

lemma electronReload_setupLog (glob : List String) (opts : Options)
    (fs : String → Bool) (mp : Option String) (ap : String) :
    (electronReload glob opts fs mp ap).setupLog =
      if hardResetEligible opts fs then []
      else ["Electron could not be found. No hard resets for you!"] := by
  by_cases hE : hardResetEligible opts fs <;> simp [electronReload, hE]

/-! Claim theorems. -/

/-- C3: the claim states that unregistering a surface that is not in the
registry leaves the registry unchanged.  The code instead computes
`browserWindows.indexOf(bw) = -1` and `splice(-1, 1)`, which removes the
last registered window: with windows 1 and 2 registered, a close
notification for the absent window 3 leaves `[1]`, not `[1, 2]`. -/
theorem c3_unregister_absent_removes_last : unregisterBW [1, 2] 3 = [1] := by decide

/-- C4: for every configuration and every sequence of delivered events,
the hard-reset callback spawns at most one successor process: the
one-shot change binding disarms after the first hard-reset change
event. -/
theorem c4_hard_reset_fires_at_most_once (glob : List String) (opts : Options)
    (fs : String → Bool) (mp : Option String) (ap : String) (evs : List Ev) :
    spawnCount (run (electronReload glob opts fs mp ap) evs).2 ≤ 1 := by
  have h1 : spawnCount (electronReload glob opts fs mp ap).hardResetActions ≤ 1 := by
    rw [electronReload_hardResetActions, spawnCount_handler]
  have h2 := run_spawnCount_le evs _ h1
  calc spawnCount (run (electronReload glob opts fs mp ap) evs).2
      ≤ (if hardArmed (electronReload glob opts fs mp ap) then 1 else 0) := h2
    _ ≤ 1 := by split <;> omega

/-- C6: the hard-reset handler performs exactly three actions: first it
spawns the configured executable as a detached process with inherited
stdio and argument vector equal to the caller-supplied argv (or empty)
with the app path appended, then it drops the child reference, and only
then terminates, via `app.exit()` exactly when the configured method is
"exit" and via `app.quit()` in every other case. -/
theorem c6_respawn_sequence (e : String) (m : Option String)
    (a : Option (List String)) (p : String) :
    (createHardresetHandler e m a p).length = 3 ∧
    (createHardresetHandler e m a p)[0]? =
      some (Action.spawn e ((a.getD []) ++ [p]) true "inherit") ∧
    (createHardresetHandler e m a p)[1]? = some Action.childUnref ∧
    (m = some "exit" → (createHardresetHandler e m a p)[2]? = some Action.appExit) ∧
    (m ≠ some "exit" → (createHardresetHandler e m a p)[2]? = some Action.appQuit) := by
  by_cases h : m = some "exit" <;> simp [createHardresetHandler, h]

/-- Witness for C6 at concrete inputs: method "exit" terminates via
`app.exit()`, and the spawn argument vector is argv with the app path
appended. -/
theorem c6_witness :
    (createHardresetHandler "/el" (some "exit") none "/app")[2]? = some Action.appExit ∧
    (createHardresetHandler "/el" none (some ["-x"]) "/app")[0]? =
      some (Action.spawn "/el" ["-x", "/app"] true "inherit") := by
  refine ⟨(c6_respawn_sequence "/el" (some "exit") none "/app").2.2.2.1 rfl, ?_⟩
  have h := (c6_respawn_sequence "/el" none (some ["-x"]) "/app").2.1
  simpa using h

/-- C7: for every event sequence in which each close notification targets
a window currently in the registry (it was created before and has not
closed since), a window is in the final registry exactly when its
creations outnumber its closes: the registry equals the set of
created-but-not-yet-closed windows. -/
theorem c7_registry_invariant (glob : List String) (opts : Options)
    (fs : String → Bool) (mp : Option String) (ap : String) (evs : List Ev)
    (hwf : wfFrom [] evs = true) (w : Nat) :
    w ∈ ((run (electronReload glob opts fs mp ap) evs).1).browserWindows ↔
      closeCount w evs < createCount w evs := by
  rw [run_browserWindows, electronReload_browserWindows]
  have h1 := wf_foldl_count evs [] w hwf
  simp only [List.count_nil] at h1
  constructor
  · intro hmem
    have h2 := List.count_pos_iff.mpr hmem
    omega
  · intro hlt
    have h2 : 0 < (evs.foldl registryStep []).count w := by omega
    exact List.count_pos_iff.mp h2

/-- Witness for C7: after creating windows 1 and 2 and closing window 1,
window 2 is in the registry and the count inequality holds. -/
theorem c7_witness :
    2 ∈ ((run (electronReload [] {} (fun _ => false) none "")
        [Ev.windowCreated 1, Ev.windowCreated 2, Ev.windowClosed 1]).1).browserWindows ↔
      closeCount 2 [Ev.windowCreated 1, Ev.windowCreated 2, Ev.windowClosed 1] <
        createCount 2 [Ev.windowCreated 1, Ev.windowCreated 2, Ev.windowClosed 1] :=
  c7_registry_invariant [] {} (fun _ => false) none ""
    [Ev.windowCreated 1, Ev.windowCreated 2, Ev.windowClosed 1] (by decide) 2

/-- C8: for every duplicate-free registry state (including the empty
one), the reload broadcast is the list of reload-ignoring-cache calls on
the registered windows in registration order; each registered window is
reloaded exactly once and an unregistered window never. -/
theorem c8_broadcast_reload (l : List Nat) (hnd : l.Nodup) :
    softResetHandler l = l.map Action.reloadIgnoringCache ∧
    (∀ w, w ∈ l → (softResetHandler l).count (Action.reloadIgnoringCache w) = 1) ∧
    (∀ w, w ∉ l → (softResetHandler l).count (Action.reloadIgnoringCache w) = 0) := by
  refine ⟨rfl, ?_, ?_⟩
  · intro w hw
    simp only [softResetHandler]
    rw [count_map_reload]
    exact List.count_eq_one_of_mem hnd hw
  · intro w hw
    simp only [softResetHandler]
    rw [count_map_reload]
    exact List.count_eq_zero_of_not_mem hw

/-- Witness for C8 on the registry holding windows 1 and 2: window 1 is
reloaded once, the unregistered window 5 never. -/
theorem c8_witness :
    (softResetHandler [1, 2]).count (Action.reloadIgnoringCache 1) = 1 ∧
    (softResetHandler [1, 2]).count (Action.reloadIgnoringCache 5) = 0 :=
  ⟨(c8_broadcast_reload [1, 2] (by decide)).2.1 1 (by decide),
   (c8_broadcast_reload [1, 2] (by decide)).2.2 5 (by decide)⟩

/-- C1 counterexample: the claim asserts that for every configuration the
entry file and the default patterns are in the soft ignore set and that
the entry file is never in the soft watch pattern set.  A caller-supplied
`ignored` option makes the `Object.assign` on line 61 replace the default
ignore array wholesale, so neither the entry file nor the
node_modules/dotfile pattern is ignored; and a glob list containing the
entry file keeps it in the watch pattern set. -/
theorem c1_counterexample :
    IgnoreEnt.path "app.js" ∉
      (electronReload ["src"] { ignored := some [], mainFile := some "app.js" }
        (fun _ => false) none "").softWatcher.ignored ∧
    ignoredPaths ∉
      (electronReload ["src"] { ignored := some [], mainFile := some "app.js" }
        (fun _ => false) none "").softWatcher.ignored ∧
    "app.js" ∈
      (electronReload ["app.js"] { mainFile := some "app.js" }
        (fun _ => false) none "").softWatcher.patterns := by
  decide

/-- C1 (amended): for every configuration that does not supply its own
`ignored` option, the soft-reset subscription's ignore set is exactly the
node_modules/dotfile pattern followed by the entry-file path, so the
entry file and the default patterns are always in the ignore set; the
entry file is excluded via the ignore set while the watch pattern set
stays the caller's glob list. -/
theorem c1_default_ignore_set (glob : List String) (opts : Options)
    (fs : String → Bool) (mp : Option String) (ap : String)
    (hig : opts.ignored = none) :
    (electronReload glob opts fs mp ap).softWatcher.ignored =
      [ignoredPaths, IgnoreEnt.path (resolveMainFile opts.mainFile mp)] ∧
    IgnoreEnt.path ((electronReload glob opts fs mp ap).mainFile) ∈
      (electronReload glob opts fs mp ap).softWatcher.ignored ∧
    ignoredPaths ∈ (electronReload glob opts fs mp ap).softWatcher.ignored ∧
    (electronReload glob opts fs mp ap).softWatcher.patterns = glob := by
  have h1 : (electronReload glob opts fs mp ap).softWatcher.ignored =
      [ignoredPaths, IgnoreEnt.path (resolveMainFile opts.mainFile mp)] := by
    rw [electronReload_softWatcher]
    simp [hig]
  refine ⟨h1, ?_, ?_, ?_⟩
  · rw [h1, electronReload_mainFile]
    simp
  · rw [h1]
    simp
  · rw [electronReload_softWatcher]

/-- Witness for C1 (amended) at a concrete configuration with no
`ignored` option. -/
theorem c1_witness :
    (electronReload ["src"] { mainFile := some "app.js" } (fun _ => false) none
      "").softWatcher.ignored = [ignoredPaths, IgnoreEnt.path "app.js"] ∧
    ignoredPaths ∈ (electronReload ["src"] { mainFile := some "app.js" }
      (fun _ => false) none "").softWatcher.ignored :=
  ⟨(c1_default_ignore_set ["src"] { mainFile := some "app.js" }
      (fun _ => false) none "" rfl).1,
   (c1_default_ignore_set ["src"] { mainFile := some "app.js" }
      (fun _ => false) none "" rfl).2.2.1⟩

/-- C2 counterexample: the claim quantifies over every configuration with
`forceHardReset` true.  With no executable configured, the soft watcher
stays open (escalation is skipped).  And in an eligible escalated
configuration the hard watcher's pattern set is the entry file plus the
glob set: it contains "app.js", which is not in the glob set ["src"], so
it does not equal the glob set. -/
theorem c2_counterexample :
    (electronReload ["src"] { forceHardReset := some true } (fun _ => true) none
      "").softWatcher.isOpen = true ∧
    "app.js" ∈ hardPatternList (electronReload ["src"]
      { forceHardReset := some true, electron := some "/el", mainFile := some "app.js" }
      (fun _ => true) none "") ∧
    "app.js" ∉ (["src"] : List String) := by
  decide

/-- C2 (amended): for every configuration with `forceHardReset` true in
which hard reset is eligible (an executable is configured and exists),
the soft-reset subscription is closed and the hard-reset subscription's
pattern set is the entry file together with the full glob pattern set,
with its one-shot binding armed. -/
theorem c2_escalation_supersedes_soft (glob : List String) (opts : Options)
    (fs : String → Bool) (mp : Option String) (ap : String)
    (hforce : opts.forceHardReset = some true)
    (helig : hardResetEligible opts fs = true) :
    (electronReload glob opts fs mp ap).softWatcher.isOpen = false ∧
    (electronReload glob opts fs mp ap).hardWatcher =
      some { patterns := resolveMainFile opts.mainFile mp :: glob
             ignored := opts.ignored.getD [ignoredPaths]
             onceArmed := true } := by
  constructor
  · rw [electronReload_softWatcher]
    simp [helig, hforce]
  · rw [electronReload_hardWatcher]
    simp [helig, hforce]

/-- Witness for C2 (amended) at a concrete eligible escalated
configuration. -/
theorem c2_witness :
    (electronReload ["src"] { forceHardReset := some true, electron := some "/el" }
      (fun _ => true) none "").softWatcher.isOpen = false ∧
    (electronReload ["src"] { forceHardReset := some true, electron := some "/el" }
      (fun _ => true) none "").hardWatcher =
      some { patterns := resolveMainFile none none :: ["src"]
             ignored := [ignoredPaths]
             onceArmed := true } :=
  c2_escalation_supersedes_soft ["src"]
    { forceHardReset := some true, electron := some "/el" }
    (fun _ => true) none "" rfl rfl

/-- C5: a hard-reset subscription exists iff an executable path is
configured and that path exists on disk at startup; when it does not
exist, no hard watcher is created, the diagnostic line is printed, and no
event sequence ever causes a respawn. -/
theorem c5_hard_reset_eligibility (glob : List String) (opts : Options)
    (fs : String → Bool) (mp : Option String) (ap : String) :
    ((electronReload glob opts fs mp ap).hardWatcher.isSome = true ↔
      ∃ e, opts.electron = some e ∧ fs e = true) ∧
    ((electronReload glob opts fs mp ap).hardWatcher = none →
      (electronReload glob opts fs mp ap).setupLog =
        ["Electron could not be found. No hard resets for you!"] ∧
      ∀ evs, spawnCount (run (electronReload glob opts fs mp ap) evs).2 = 0) := by
  have helig : hardResetEligible opts fs = true ↔
      ∃ e, opts.electron = some e ∧ fs e = true := by
    unfold hardResetEligible
    cases opts.electron <;> simp
  constructor
  · rw [electronReload_hardWatcher, ← helig]
    by_cases hE : hardResetEligible opts fs <;> simp [hE]
  · intro hnone
    have hE : hardResetEligible opts fs = false := by
      rw [electronReload_hardWatcher] at hnone
      by_cases hE : hardResetEligible opts fs
      · simp [hE] at hnone
      · simpa using hE
    constructor
    · rw [electronReload_setupLog, hE]
      simp
    · intro evs
      have h1 : spawnCount (electronReload glob opts fs mp ap).hardResetActions ≤ 1 := by
        rw [electronReload_hardResetActions, spawnCount_handler]
      have h2 := run_spawnCount_le evs _ h1
      have h3 : hardArmed (electronReload glob opts fs mp ap) = false := by
        simp [hardArmed, hnone]
      rw [h3] at h2
      simp only [Bool.false_eq_true, if_false] at h2
      omega

/-- Witness for C5 at a configuration with no executable: the diagnostic
is printed and a hard change event spawns nothing. -/
theorem c5_witness :
    (electronReload ["src"] {} (fun _ => false) none "").setupLog =
      ["Electron could not be found. No hard resets for you!"] ∧
    spawnCount (run (electronReload ["src"] {} (fun _ => false) none "")
      [Ev.hardChange]).2 = 0 := by
  have h := (c5_hard_reset_eligibility ["src"] {} (fun _ => false) none "").2 (by decide)
  exact ⟨h.1, h.2 [Ev.hardChange]⟩

/-- C9: the resolved entry-file path is the explicit `mainFile` option
when given, else the caller's module filename when available, else the
empty string; startup always completes, the soft watcher always covering
the caller's glob list, and in the empty-path case the soft watcher is
open unless escalation with an eligible executable closed it (which
happens for every entry path, not because of the empty one). -/
theorem c9_entry_file_resolution (glob : List String) (opts : Options)
    (fs : String → Bool) (mp : Option String) (ap : String) :
    (electronReload glob opts fs mp ap).mainFile = resolveMainFile opts.mainFile mp ∧
    (∀ m, opts.mainFile = some m → resolveMainFile opts.mainFile mp = m) ∧
    (opts.mainFile = none → ∀ f, mp = some f → resolveMainFile opts.mainFile mp = f) ∧
    (opts.mainFile = none → mp = none → resolveMainFile opts.mainFile mp = "") ∧
    (electronReload glob opts fs mp ap).softWatcher.patterns = glob ∧
    (resolveMainFile opts.mainFile mp = "" →
      (electronReload glob opts fs mp ap).softWatcher.isOpen = true ∨
      (opts.forceHardReset = some true ∧ hardResetEligible opts fs = true)) := by
  refine ⟨electronReload_mainFile glob opts fs mp ap, ?_, ?_, ?_, ?_, ?_⟩
  · intro m hm
    rw [hm]
    rfl
  · intro h f hf
    rw [h, hf]
    rfl
  · intro h hf
    rw [h, hf]
    rfl
  · rw [electronReload_softWatcher]
  · intro _
    by_cases hE : hardResetEligible opts fs
    · by_cases hF : opts.forceHardReset = some true
      · exact Or.inr ⟨hF, hE⟩
      · refine Or.inl ?_
        rw [electronReload_softWatcher]
        simp [hE, hF]
    · refine Or.inl ?_
      rw [electronReload_softWatcher]
      have hE2 : hardResetEligible opts fs = false := by simpa using hE
      simp [hE2]

/-- Witness for C9 at the fully default configuration: the entry path
resolves to the empty string and the soft watcher is open. -/
theorem c9_witness :
    resolveMainFile ({} : Options).mainFile none = "" ∧
    ((electronReload [] {} (fun _ => false) none "").softWatcher.isOpen = true ∨
      (({} : Options).forceHardReset = some true ∧
        hardResetEligible {} (fun _ => false) = true)) := by
  have h := c9_entry_file_resolution [] {} (fun _ => false) none ""
  exact ⟨h.2.2.2.1 rfl rfl, h.2.2.2.2.2 (h.2.2.2.1 rfl rfl)⟩

/-- C10: when `forceHardReset` is true but no executable is configured or
the configured one does not exist, the soft watcher is open at startup
and stays open under every event sequence, every soft change event in an
open state triggers exactly the reload broadcast, no hard watcher exists,
and no event sequence ever causes a respawn: escalation has no effect. -/
theorem c10_escalation_without_executable (glob : List String) (opts : Options)
    (fs : String → Bool) (mp : Option String) (ap : String)
    (_hforce : opts.forceHardReset = some true)
    (hinel : opts.electron = none ∨ ∃ e, opts.electron = some e ∧ fs e = false) :
    (electronReload glob opts fs mp ap).softWatcher.isOpen = true ∧
    (∀ evs, ((run (electronReload glob opts fs mp ap) evs).1).softWatcher.isOpen = true) ∧
    (∀ s : DispatcherState, s.softWatcher.isOpen = true →
      step s Ev.softChange = (s, softResetHandler s.browserWindows)) ∧
    (electronReload glob opts fs mp ap).hardWatcher = none ∧
    (∀ evs, spawnCount (run (electronReload glob opts fs mp ap) evs).2 = 0) := by
  have hE : hardResetEligible opts fs = false := by
    unfold hardResetEligible
    rcases hinel with h | ⟨e, he, hfe⟩
    · simp [h]
    · simp [he, hfe]
  have hopen : (electronReload glob opts fs mp ap).softWatcher.isOpen = true := by
    rw [electronReload_softWatcher]
    simp [hE]
  have hnone : (electronReload glob opts fs mp ap).hardWatcher = none := by
    rw [electronReload_hardWatcher, hE]
    simp
  refine ⟨hopen, ?_, ?_, hnone, ?_⟩
  · intro evs
    rw [run_softWatcher]
    exact hopen
  · intro s hs
    simp [step, hs]
  · intro evs
    have h1 : spawnCount (electronReload glob opts fs mp ap).hardResetActions ≤ 1 := by
      rw [electronReload_hardResetActions, spawnCount_handler]
    have h2 := run_spawnCount_le evs _ h1
    have h3 : hardArmed (electronReload glob opts fs mp ap) = false := by
      simp [hardArmed, hnone]
    rw [h3] at h2
    simp only [Bool.false_eq_true, if_false] at h2
    omega

/-- Witness for C10 at a concrete escalated configuration whose
executable path does not exist. -/
theorem c10_witness :
    (electronReload ["src"] { forceHardReset := some true, electron := some "/el" }
      (fun _ => false) none "").softWatcher.isOpen = true ∧
    spawnCount (run (electronReload ["src"]
      { forceHardReset := some true, electron := some "/el" }
      (fun _ => false) none "") [Ev.softChange, Ev.hardChange]).2 = 0 := by
  have h := c10_escalation_without_executable ["src"]
    { forceHardReset := some true, electron := some "/el" } (fun _ => false) none ""
    rfl (Or.inr ⟨"/el", rfl, rfl⟩)
  exact ⟨h.1, h.2.2.2.2 [Ev.softChange, Ev.hardChange]⟩

end ElectronReload
